import Mathlib

/-!
Verification of the `mover` service of `agentic-orchestrator`.

The definitions below are a shallow embedding of the Rust sources
`src/common/mover/src/protocol.rs`, `config.rs`, `iouring.rs` and `main.rs`.
Byte streams are `List Nat` whose elements model `u8` values (< 256);
machine integers are `Nat` with explicit truncation where the Rust code
casts (`as u16`, `as u32`); fallible code returns `Except String`.
-/

namespace Mover

/-- Little-endian encoding of `v` to exactly `n` bytes; high bits beyond
`n` bytes are dropped, exactly like Rust `as uN` followed by `to_le_bytes`. -/
def toLe : Nat → Nat → List Nat
  | 0, _ => []
  | n + 1, v => v % 256 :: toLe n (v / 256)

/-- Little-endian decoding of a byte list, as `uN::from_le_bytes`. -/
def ofLe : List Nat → Nat
  | [] => 0
  | b :: t => b + 256 * ofLe t

/-- `Read::read_exact` on an in-memory byte stream: take exactly `n` bytes
or fail with the `UnexpectedEof` error. -/
def readExact (n : Nat) (l : List Nat) : Except String (List Nat × List Nat) :=
  if n ≤ l.length then .ok (l.take n, l.drop n)
  else .error "failed to fill whole buffer"

/-- Operation codes for mover requests (`protocol.rs`, `enum OpCode`). -/
inductive OpCode where
  | Read
  | Write
  | SendZC
  | Recv
  | Batch
  deriving DecidableEq, Repr

/-- The `#[repr(u8)]` discriminant of each opcode (`OpCode as u8`). -/
def OpCode.toByte : OpCode → Nat
  | .Read => 0x01
  | .Write => 0x02
  | .SendZC => 0x03
  | .Recv => 0x04
  | .Batch => 0x05

/-- `impl TryFrom<u8> for OpCode` (`protocol.rs`). -/
def OpCode.tryFrom (b : Nat) : Except String OpCode :=
  if b = 0x01 then .ok .Read
  else if b = 0x02 then .ok .Write
  else if b = 0x03 then .ok .SendZC
  else if b = 0x04 then .ok .Recv
  else if b = 0x05 then .ok .Batch
  else .error "unknown op code"

/-- `struct MoverRequest` (`protocol.rs`); `id`/`data` are `Vec<u8>`,
`offset`/`length` are `usize` (64-bit). -/
structure MoverRequest where
  op : OpCode
  id : List Nat
  offset : Nat
  length : Nat
  data : List Nat
  deriving DecidableEq, Repr

namespace MoverRequest

/-- `MoverRequest::write_to` on an in-memory writer (`Vec<u8>` cannot fail):
`[op: u8][id_len: u16][id][offset: u64][len: u64][data_len: u32][data]`.
The length prefixes truncate exactly like the Rust casts
`id.len() as u16` and `data.len() as u32` (via `toLe`). -/
def write_to (r : MoverRequest) : List Nat :=
  [r.op.toByte]
    ++ toLe 2 r.id.length
    ++ r.id
    ++ toLe 8 r.offset
    ++ toLe 8 r.length
    ++ toLe 4 r.data.length
    ++ r.data

/-- `MoverRequest::read_from` on an in-memory reader; returns the decoded
request together with the unread remainder of the stream. -/
def read_from (l : List Nat) : Except String (MoverRequest × List Nat) :=
  match readExact 1 l with
  | .error e => .error e
  | .ok (opb, l1) =>
  match OpCode.tryFrom (opb.headD 0) with
  | .error e => .error e
  | .ok op =>
  match readExact 2 l1 with
  | .error e => .error e
  | .ok (idLenB, l2) =>
  match readExact (ofLe idLenB) l2 with
  | .error e => .error e
  | .ok (id, l3) =>
  match readExact 8 l3 with
  | .error e => .error e
  | .ok (offB, l4) =>
  match readExact 8 l4 with
  | .error e => .error e
  | .ok (lenB, l5) =>
  match readExact 4 l5 with
  | .error e => .error e
  | .ok (dataLenB, l6) =>
  match readExact (ofLe dataLenB) l6 with
  | .error e => .error e
  | .ok (data, l7) =>
    .ok ({ op := op, id := id, offset := ofLe offB,
           length := ofLe lenB, data := data }, l7)

end MoverRequest

/-- `enum ResponseStatus` (`protocol.rs`). -/
inductive ResponseStatus where
  | Ok
  | NotFound
  | Error
  deriving DecidableEq, Repr

/-- The `#[repr(u8)]` discriminant of each status (`ResponseStatus as u8`). -/
def ResponseStatus.toByte : ResponseStatus → Nat
  | .Ok => 0x00
  | .NotFound => 0x01
  | .Error => 0x02

/-- The `match status_byte[0]` arm of `MoverResponse::read_from`, factored
out: maps a status byte to a `ResponseStatus` or fails. -/
def ResponseStatus.tryFrom (b : Nat) : Except String ResponseStatus :=
  if b = 0x00 then .ok .Ok
  else if b = 0x01 then .ok .NotFound
  else if b = 0x02 then .ok .Error
  else .error "unknown status"

/-- `struct MoverResponse` (`protocol.rs`). -/
structure MoverResponse where
  status : ResponseStatus
  data : List Nat
  deriving DecidableEq, Repr

namespace MoverResponse

/-- `MoverResponse::write_to`: `[status: u8][data_len: u32][data]`; the
length prefix truncates exactly like the Rust cast `data.len() as u32`. -/
def write_to (r : MoverResponse) : List Nat :=
  [r.status.toByte] ++ toLe 4 r.data.length ++ r.data

/-- `MoverResponse::read_from`. -/
def read_from (l : List Nat) : Except String (MoverResponse × List Nat) :=
  match readExact 1 l with
  | .error e => .error e
  | .ok (statusB, l1) =>
  match ResponseStatus.tryFrom (statusB.headD 0) with
  | .error e => .error e
  | .ok status =>
  match readExact 4 l1 with
  | .error e => .error e
  | .ok (dataLenB, l2) =>
  match readExact (ofLe dataLenB) l2 with
  | .error e => .error e
  | .ok (data, l3) => .ok ({ status := status, data := data }, l3)

/-- `MoverResponse::ok`. -/
def mkOk (data : List Nat) : MoverResponse := { status := .Ok, data := data }

/-- `MoverResponse::not_found`. -/
def not_found : MoverResponse := { status := .NotFound, data := [] }

/-- `MoverResponse::error` (`message.into_bytes()` on an ASCII message is
the list of its code points). -/
def mkError (message : String) : MoverResponse :=
  { status := .Error, data := message.toList.map Char.toNat }

end MoverResponse

/-- A well-formed in-memory `MoverRequest`: its `Vec<u8>` fields hold bytes,
its `usize` fields fit in 64 bits, the identifier fits the `u16` length
prefix and the payload fits the `u32` length prefix. -/
def ValidReq (r : MoverRequest) : Prop :=
  r.id.length ≤ 65535 ∧ r.data.length ≤ 4294967295 ∧
  r.offset < 2 ^ 64 ∧ r.length < 2 ^ 64 ∧
  (∀ b ∈ r.id, b < 256) ∧ (∀ b ∈ r.data, b < 256)

/-- A well-formed in-memory `MoverResponse`: its payload holds bytes and
fits the `u32` length prefix. -/
def ValidResp (r : MoverResponse) : Prop :=
  r.data.length ≤ 4294967295 ∧ ∀ b ∈ r.data, b < 256

instance (r : MoverRequest) : Decidable (ValidReq r) := by
  unfold ValidReq; infer_instance

instance (r : MoverResponse) : Decidable (ValidResp r) := by
  unfold ValidResp; infer_instance

/-! ### Configuration (`config.rs`) -/

/-- An environment: maps a variable name to its value when set
(`std::env::var`). -/
def Env : Type := String → Option String

/-- Bit-counting loop over the 32 bit positions of a `u32`. -/
def countOnesAux : Nat → Nat → Nat
  | 0, _ => 0
  | k + 1, m => m % 2 + countOnesAux k (m / 2)

/-- `u32::count_ones`. -/
def countOnes (n : Nat) : Nat := countOnesAux 32 n

/-- `u32::is_power_of_two`: exactly one bit set. -/
def isPowerOfTwo (n : Nat) : Bool := countOnes n == 1

/-- `str::parse::<uN>` for an unsigned integer type whose values are
`< bound`: optional leading `+`, then one or more ASCII digits, and the
value must fit; anything else is a parse error (`None`). -/
def rustParseUnsigned (bound : Nat) (s : String) : Option Nat :=
  let cs := match s.toList with
    | '+' :: rest => rest
    | cs => cs
  if cs ≠ [] ∧ cs.all Char.isDigit then
    let v := cs.foldl (fun acc c => acc * 10 + (c.toNat - 48)) 0
    if v < bound then some v else none
  else none

/-- `get_env_string` (`config.rs`). -/
def get_env_string (env : Env) (key default : String) : String :=
  (env key).getD default

/-- `get_env_u32` (`config.rs`): a set-but-unparsable value falls back to
the default, silently. -/
def get_env_u32 (env : Env) (key : String) (default : Nat) : Nat :=
  ((env key).bind fun v => rustParseUnsigned (2 ^ 32) v).getD default

/-- `get_env_usize` (`config.rs`), 64-bit `usize`. -/
def get_env_usize (env : Env) (key : String) (default : Nat) : Nat :=
  ((env key).bind fun v => rustParseUnsigned (2 ^ 64) v).getD default

/-- `get_env_u64` (`config.rs`). -/
def get_env_u64 (env : Env) (key : String) (default : Nat) : Nat :=
  ((env key).bind fun v => rustParseUnsigned (2 ^ 64) v).getD default

/-- `str::to_lowercase` for ASCII strings. -/
def strToLower (s : String) : String := ⟨s.toList.map Char.toLower⟩

/-- `str::starts_with` for a string pattern. -/
def strStartsWith (s pre : String) : Bool := pre.toList.isPrefixOf s.toList

/-- `get_env_bool` (`config.rs`). -/
def get_env_bool (env : Env) (key : String) (default : Bool) : Bool :=
  ((env key).map fun v => strToLower v == "true").getD default

def IORING_SETUP_IOPOLL : Nat := 1
def IORING_SETUP_SQPOLL : Nat := 2
def IORING_SETUP_SQ_AFF : Nat := 4
def IORING_SETUP_CQSIZE : Nat := 8
def IORING_SETUP_CLAMP : Nat := 16
def IORING_SETUP_ATTACH_WQ : Nat := 32

/-- `struct MoverConfig` (`config.rs`). -/
structure MoverConfig where
  socket_path : String
  db_url : String
  iouring_entries : Nat
  iouring_flags : Nat
  buffer_count : Nat
  buffer_size : Nat
  batch_timeout_ms : Nat
  max_connections : Nat
  enable_huge_pages : Bool
  enable_send_zc : Bool
  deriving DecidableEq, Repr

/-- `flag_name.trim()` (ASCII whitespace on both ends). -/
def trimChars (cs : List Char) : List Char :=
  ((cs.dropWhile Char.isWhitespace).reverse.dropWhile Char.isWhitespace).reverse

/-- `flag_name.trim().to_lowercase()` applied to one comma segment. -/
def canonFlag (seg : List Char) : List Char :=
  (trimChars seg).map Char.toLower

/-- The `match flag_name.as_str()` table of `parse_iouring_flags`: the bit
for a recognized flag name, `0` for an empty segment, `none` otherwise. -/
def flagBit (name : List Char) : Option Nat :=
  if name = "iopoll".toList then some IORING_SETUP_IOPOLL
  else if name = "sqpoll".toList then some IORING_SETUP_SQPOLL
  else if name = "sq_aff".toList then some IORING_SETUP_SQ_AFF
  else if name = "cqsize".toList then some IORING_SETUP_CQSIZE
  else if name = "clamp".toList then some IORING_SETUP_CLAMP
  else if name = "attach_wq".toList then some IORING_SETUP_ATTACH_WQ
  else if name = [] then some 0
  else none

/-- The `for flag_name in flags_str.split(',')` loop of
`parse_iouring_flags`, with the `flags` accumulator. -/
def parseFlagsLoop (flags : Nat) : List (List Char) → Except String Nat
  | [] => .ok flags
  | seg :: rest =>
    match flagBit (canonFlag seg) with
    | none => .error ("Unknown io_uring flag: " ++ (canonFlag seg).asString)
    | some b => parseFlagsLoop (flags ||| b) rest

/-- `MoverConfig::parse_iouring_flags` applied to the flag string: numeric
value first, otherwise comma-separated symbolic names. -/
def parseFlagsStr (s : String) : Except String Nat :=
  match rustParseUnsigned (2 ^ 32) s with
  | some n => .ok n
  | none => parseFlagsLoop 0 (s.toList.splitOn ',')

namespace MoverConfig

/-- `MoverConfig::parse_iouring_flags` (reads `IOURING_FLAGS` with default
`"clamp"`). -/
def parse_iouring_flags (env : Env) : Except String Nat :=
  parseFlagsStr ((env "IOURING_FLAGS").getD "clamp")

/-- `MoverConfig::load_from_env`. -/
def load_from_env (env : Env) : Except String MoverConfig :=
  match parse_iouring_flags env with
  | .error e => .error e
  | .ok flags => .ok {
      socket_path := get_env_string env "MOVER_SOCKET" "/tmp/mover.sock"
      db_url := get_env_string env "DATABASE_URL" "postgres://localhost/orchestrator"
      iouring_entries := get_env_u32 env "IOURING_ENTRIES" 4096
      iouring_flags := flags
      buffer_count := get_env_usize env "MOVER_BUFFER_COUNT" 256
      buffer_size := get_env_usize env "MOVER_BUFFER_SIZE" 4096
      batch_timeout_ms := get_env_u64 env "MOVER_BATCH_TIMEOUT_MS" 10
      max_connections := get_env_usize env "MOVER_MAX_CONNECTIONS" 32
      enable_huge_pages := get_env_bool env "MOVER_ENABLE_HUGE_PAGES" false
      enable_send_zc := get_env_bool env "MOVER_ENABLE_SEND_ZC" true }

/-- `MoverConfig::with_defaults`. -/
def with_defaults : MoverConfig :=
  { socket_path := "/tmp/mover.sock"
    db_url := "postgres://localhost/orchestrator"
    iouring_entries := 4096
    iouring_flags := IORING_SETUP_CLAMP
    buffer_count := 256
    buffer_size := 4096
    batch_timeout_ms := 10
    max_connections := 32
    enable_huge_pages := false
    enable_send_zc := true }

/-- `MoverConfig::validate`. -/
def validate (c : MoverConfig) : Except String MoverConfig :=
  if isPowerOfTwo c.iouring_entries = false then
    .error ("iouring_entries must be power of 2, got " ++ toString c.iouring_entries)
  else if c.iouring_entries < 256 ∨ 8192 < c.iouring_entries then
    .error ("iouring_entries must be 256-8192, got " ++ toString c.iouring_entries)
  else if ¬ c.buffer_size % 4096 = 0 then
    .error ("buffer_size must be multiple of 4096, got " ++ toString c.buffer_size)
  else if c.buffer_count = 0 ∨ 1024 < c.buffer_count then
    .error ("buffer_count must be 1-1024, got " ++ toString c.buffer_count)
  else if c.batch_timeout_ms = 0 ∨ 1000 < c.batch_timeout_ms then
    .error ("batch_timeout_ms must be 1-1000, got " ++ toString c.batch_timeout_ms)
  else if strStartsWith c.socket_path "/" = false then
    .error ("socket_path must be absolute, got " ++ c.socket_path)
  else .ok c

end MoverConfig

/-- The conjunction of the rules `MoverConfig::validate` enforces. -/
def ConfigOk (c : MoverConfig) : Prop :=
  isPowerOfTwo c.iouring_entries = true ∧
  256 ≤ c.iouring_entries ∧ c.iouring_entries ≤ 8192 ∧
  c.buffer_size % 4096 = 0 ∧
  1 ≤ c.buffer_count ∧ c.buffer_count ≤ 1024 ∧
  1 ≤ c.batch_timeout_ms ∧ c.batch_timeout_ms ≤ 1000 ∧
  strStartsWith c.socket_path "/" = true

instance (c : MoverConfig) : Decidable (ConfigOk c) := by
  unfold ConfigOk; infer_instance

/-! ### Buffer pool and batched reads (`iouring.rs`) -/

/-- `struct BufferPool` (`iouring.rs`): `buffers` plus the free list
`available` of buffer indices. -/
structure BufferPool where
  buffers : List (List Nat)
  available : List Nat
  deriving DecidableEq, Repr

namespace BufferPool

/-- `BufferPool::new`: `count` zeroed buffers, all indices free. -/
def new (count buffer_size : Nat) : BufferPool :=
  { buffers := List.replicate count (List.replicate buffer_size 0)
    available := List.range count }

/-- `BufferPool::acquire`: `self.available.pop()` takes the last free
index (LIFO); `None` when the free list is empty. -/
def acquire (p : BufferPool) : Option (Nat × BufferPool) :=
  match p.available.getLast? with
  | none => none
  | some idx => some (idx, { p with available := p.available.dropLast })

/-- `BufferPool::release`: pushes the index back onto the free list when
it is in bounds, with no double-release guard. -/
def release (p : BufferPool) (idx : Nat) : BufferPool :=
  if idx < p.buffers.length then { p with available := p.available ++ [idx] }
  else p

/-- `k` successive `acquire` calls, failing if any of them fails. -/
def acquireChain (p : BufferPool) : Nat → Option BufferPool
  | 0 => some p
  | k + 1 =>
    match p.acquire with
    | none => none
    | some (_, p') => acquireChain p' k

end BufferPool

/-- `struct ReadOp` (`iouring.rs`). -/
structure ReadOp where
  path : String
  offset : Nat
  length : Nat
  deriving DecidableEq, Repr

/-- `IoUringPool::batch_read` (`iouring.rs`): one spawned read per input,
then joined strictly in input order, the first failed join failing the
whole batch. `readFile` gives the outcome of each spawned read. -/
def batch_read (readFile : ReadOp → Except String (List Nat)) :
    List ReadOp → Except String (List (List Nat))
  | [] => .ok []
  | op :: rest =>
    match readFile op with
    | .error e => .error e
    | .ok buf =>
      match batch_read readFile rest with
      | .error e => .error e
      | .ok bufs => .ok (buf :: bufs)

/-! ### Request handlers (`main.rs`) -/

/-- `handle_read` with no Postgres backend wired (`main.rs`). -/
def handle_read (_req : MoverRequest) : MoverResponse :=
  MoverResponse.mkError "READ not implemented - needs Postgres connection"

/-- `handle_write` (`main.rs`). -/
def handle_write (_req : MoverRequest) : MoverResponse :=
  MoverResponse.mkError "WRITE not implemented"

/-- `handle_send_zc` (`main.rs`). -/
def handle_send_zc (_req : MoverRequest) : MoverResponse :=
  MoverResponse.mkError "SEND_ZC not implemented"

/-- `handle_recv` (`main.rs`). -/
def handle_recv (_req : MoverRequest) : MoverResponse :=
  MoverResponse.mkError "RECV not implemented"

/-- `handle_batch` (`main.rs`). -/
def handle_batch (_req : MoverRequest) : MoverResponse :=
  MoverResponse.mkError "BATCH not implemented"

/-- The `match req.op` dispatch of `handle_connection` (`main.rs`). -/
def dispatch (req : MoverRequest) : MoverResponse :=
  match req.op with
  | .Read => handle_read req
  | .Write => handle_write req
  | .SendZC => handle_send_zc req
  | .Recv => handle_recv req
  | .Batch => handle_batch req

/-- The UTF-8 bytes of an ASCII message (`String::into_bytes`). -/
def strBytes (s : String) : List Nat := s.toList.map Char.toNat

/-- `pat` occurs as a contiguous run inside `l`. -/
def containsBytes (pat : List Nat) : List Nat → Bool
  | [] => pat.isEmpty
  | b :: t => pat.isPrefixOf (b :: t) || containsBytes pat t

/-- The spec's end-to-end example request: a `Read` with id `b"abc"`,
offset 0, length 0 and empty payload. -/
def abcReadReq : MoverRequest :=
  { op := .Read, id := strBytes "abc", offset := 0, length := 0, data := [] }

/-- An environment where `IOURING_ENTRIES` is set to a non-numeric value
and every other variable is unset. -/
def abcEntriesEnv : Env :=
  fun k => if k = "IOURING_ENTRIES" then some "abc" else none

theorem length_toLe (n v : Nat) : (toLe n v).length = n := by
  induction n generalizing v with
  | zero => rfl
  | succ n ih => simp [toLe, ih]

theorem mem_toLe_lt {n v b : Nat} (h : b ∈ toLe n v) : b < 256 := by
  induction n generalizing v with
  | zero => simp [toLe] at h
  | succ n ih =>
    simp only [toLe, List.mem_cons] at h
    rcases h with h | h
    · subst h; exact Nat.mod_lt _ (by norm_num)
    · exact ih h

theorem ofLe_toLe (n v : Nat) : ofLe (toLe n v) = v % 2 ^ (8 * n) := by
  induction n generalizing v with
  | zero => simp [toLe, ofLe, Nat.mod_one]
  | succ n ih =>
    have h256 : (2 : Nat) ^ (8 * (n + 1)) = 256 * 2 ^ (8 * n) := by
      rw [Nat.mul_succ, pow_add]; ring
    rw [toLe, ofLe, ih, h256, Nat.mod_mul]

theorem toLe_ofLe {l : List Nat} (hb : ∀ b ∈ l, b < 256) :
    toLe l.length (ofLe l) = l := by
  induction l with
  | nil => rfl
  | cons b t ih =>
    have hb' : b < 256 := hb b (List.mem_cons_self b t)
    have hmod : (b + 256 * ofLe t) % 256 = b := by
      rw [Nat.add_mul_mod_self_left, Nat.mod_eq_of_lt hb']
    have hdiv : (b + 256 * ofLe t) / 256 = ofLe t := by
      rw [Nat.add_mul_div_left _ _ (by norm_num : (0:Nat) < 256),
        Nat.div_eq_of_lt hb', Nat.zero_add]
    simp only [List.length_cons, toLe, ofLe, hmod, hdiv]
    rw [ih fun x hx => hb x (List.mem_cons_of_mem _ hx)]

theorem ofLe_lt {l : List Nat} (hb : ∀ b ∈ l, b < 256) :
    ofLe l < 2 ^ (8 * l.length) := by
  induction l with
  | nil => simp [ofLe]
  | cons b t ih =>
    have hb' : b < 256 := hb b (List.mem_cons_self b t)
    have ht := ih fun x hx => hb x (List.mem_cons_of_mem _ hx)
    have h256 : (2 : Nat) ^ (8 * (t.length + 1)) = 256 * 2 ^ (8 * t.length) := by
      rw [Nat.mul_succ, pow_add]; ring
    simp only [ofLe, List.length_cons, h256]
    omega

theorem readExact_append {t : List Nat} (r : List Nat) {n : Nat}
    (h : t.length = n) : readExact n (t ++ r) = .ok (t, r) := by
  subst h
  rw [readExact, if_pos (by simp), List.take_left, List.drop_left]

theorem readExact_cons (b : Nat) (l : List Nat) :
    readExact 1 (b :: l) = .ok ([b], l) := by
  rw [readExact, if_pos (by simp)]
  simp

theorem readExact_ok {n : Nat} {l t r : List Nat}
    (h : readExact n l = .ok (t, r)) : t.length = n ∧ l = t ++ r := by
  rw [readExact] at h
  split at h
  · rename_i hn
    injection h with h
    injection h with h1 h2
    subst h1; subst h2
    exact ⟨List.length_take_of_le hn, (List.take_append_drop n l).symm⟩
  · exact absurd h (by simp)

theorem tryFrom_toByte (op : OpCode) : OpCode.tryFrom op.toByte = .ok op := by
  cases op <;> rfl

theorem tryFrom_ok {b : Nat} {op : OpCode}
    (h : OpCode.tryFrom b = .ok op) : b = op.toByte := by
  unfold OpCode.tryFrom at h
  split_ifs at h <;> injection h with h <;> subst h <;> simp [OpCode.toByte, *]

theorem statusTryFrom_toByte (s : ResponseStatus) :
    ResponseStatus.tryFrom s.toByte = .ok s := by
  cases s <;> rfl

theorem statusTryFrom_ok {b : Nat} {s : ResponseStatus}
    (h : ResponseStatus.tryFrom b = .ok s) : b = s.toByte := by
  unfold ResponseStatus.tryFrom at h
  split_ifs at h <;> injection h with h <;> subst h <;>
    simp [ResponseStatus.toByte, *]

theorem request_read_write (x : MoverRequest) (hx : ValidReq x) (r : List Nat) :
    MoverRequest.read_from (x.write_to ++ r) = .ok (x, r) := by
  obtain ⟨hid, hdata, hoff, hlen, _, _⟩ := hx
  have hid' : x.id.length % 2 ^ (8 * 2) = x.id.length :=
    Nat.mod_eq_of_lt (by omega)
  have hdata' : x.data.length % 2 ^ (8 * 4) = x.data.length :=
    Nat.mod_eq_of_lt (by omega)
  have hoff' : x.offset % 2 ^ (8 * 8) = x.offset := Nat.mod_eq_of_lt (by omega)
  have hlen' : x.length % 2 ^ (8 * 8) = x.length := Nat.mod_eq_of_lt (by omega)
  simp only [MoverRequest.write_to, List.cons_append, List.nil_append,
    List.append_assoc]
  simp only [MoverRequest.read_from, readExact_cons, List.headD_cons,
    tryFrom_toByte, readExact_append, length_toLe, ofLe_toLe,
    hid', hdata', hoff', hlen']

theorem response_read_write (x : MoverResponse) (hx : ValidResp x) (r : List Nat) :
    MoverResponse.read_from (x.write_to ++ r) = .ok (x, r) := by
  obtain ⟨hdata, _⟩ := hx
  have hdata' : x.data.length % 2 ^ (8 * 4) = x.data.length :=
    Nat.mod_eq_of_lt (by omega)
  simp only [MoverResponse.write_to, List.cons_append, List.nil_append,
    List.append_assoc]
  simp only [MoverResponse.read_from, readExact_cons, List.headD_cons,
    statusTryFrom_toByte, readExact_append, length_toLe, ofLe_toLe, hdata']

theorem request_read_inv {l : List Nat} {v : MoverRequest} {rest : List Nat}
    (hb : ∀ b ∈ l, b < 256)
    (h : MoverRequest.read_from l = .ok (v, rest)) :
    ValidReq v ∧ l = v.write_to ++ rest := by
  rw [MoverRequest.read_from] at h
  repeat' split at h
  all_goals simp only [Except.ok.injEq, Prod.mk.injEq, reduceCtorEq] at h
  rename_i x7 opb l1 e1 x6 op e2 x5 idLenB l2 e3 x4 id l3 e4 x3 offB l4 e5
    x2 lenB l5 e6 x1 dataLenB l6 e7 x0 data l7 e8
  obtain ⟨hv, hrest⟩ := h
  subst hv; subst hrest
  obtain ⟨hn1, hd1⟩ := readExact_ok e1
  obtain ⟨hn2, hd2⟩ := readExact_ok e3
  obtain ⟨hnId, hd3⟩ := readExact_ok e4
  obtain ⟨hn8a, hd4⟩ := readExact_ok e5
  obtain ⟨hn8b, hd5⟩ := readExact_ok e6
  obtain ⟨hn4, hd6⟩ := readExact_ok e7
  obtain ⟨hnData, hd7⟩ := readExact_ok e8
  obtain ⟨b0, hb0⟩ := List.length_eq_one.mp hn1
  subst hb0
  have hop : b0 = op.toByte := tryFrom_ok (by simpa using e2)
  subst hop
  subst hd1; subst hd2; subst hd3; subst hd4; subst hd5; subst hd6; subst hd7
  have hbIdLen : ∀ b ∈ idLenB, b < 256 := fun b m => hb b (by simp [m])
  have hbId : ∀ b ∈ id, b < 256 := fun b m => hb b (by simp [m])
  have hbOff : ∀ b ∈ offB, b < 256 := fun b m => hb b (by simp [m])
  have hbLen : ∀ b ∈ lenB, b < 256 := fun b m => hb b (by simp [m])
  have hbDataLen : ∀ b ∈ dataLenB, b < 256 := fun b m => hb b (by simp [m])
  have hbData : ∀ b ∈ data, b < 256 := fun b m => hb b (by simp [m])
  have hIdLenB : toLe 2 (ofLe idLenB) = idLenB := by
    rw [← hn2]; exact toLe_ofLe hbIdLen
  have hOffB : toLe 8 (ofLe offB) = offB := by
    rw [← hn8a]; exact toLe_ofLe hbOff
  have hLenB : toLe 8 (ofLe lenB) = lenB := by
    rw [← hn8b]; exact toLe_ofLe hbLen
  have hDataLenB : toLe 4 (ofLe dataLenB) = dataLenB := by
    rw [← hn4]; exact toLe_ofLe hbDataLen
  have hIdLt : ofLe idLenB < 2 ^ (8 * 2) := hn2 ▸ ofLe_lt hbIdLen
  have hOffLt : ofLe offB < 2 ^ (8 * 8) := hn8a ▸ ofLe_lt hbOff
  have hLenLt : ofLe lenB < 2 ^ (8 * 8) := hn8b ▸ ofLe_lt hbLen
  have hDataLt : ofLe dataLenB < 2 ^ (8 * 4) := hn4 ▸ ofLe_lt hbDataLen
  refine ⟨⟨?_, ?_, ?_, ?_, hbId, hbData⟩, ?_⟩
  · simp only [hnId]; omega
  · simp only [hnData]; omega
  · simpa using hOffLt
  · simpa using hLenLt
  · simp only [MoverRequest.write_to, hnId, hnData, hIdLenB, hOffB, hLenB,
      hDataLenB, List.append_assoc, List.cons_append, List.nil_append]

theorem response_read_inv {l : List Nat} {v : MoverResponse} {rest : List Nat}
    (hb : ∀ b ∈ l, b < 256)
    (h : MoverResponse.read_from l = .ok (v, rest)) :
    ValidResp v ∧ l = v.write_to ++ rest := by
  rw [MoverResponse.read_from] at h
  repeat' split at h
  all_goals simp only [Except.ok.injEq, Prod.mk.injEq, reduceCtorEq] at h
  rename_i x3 statusB l1 e1 x2 status e2 x1 dataLenB l2 e3 x0 data l3 e4
  obtain ⟨hv, hrest⟩ := h
  subst hv; subst hrest
  obtain ⟨hn1, hd1⟩ := readExact_ok e1
  obtain ⟨hn4, hd2⟩ := readExact_ok e3
  obtain ⟨hnData, hd3⟩ := readExact_ok e4
  obtain ⟨b0, hb0⟩ := List.length_eq_one.mp hn1
  subst hb0
  have hst : b0 = status.toByte := statusTryFrom_ok (by simpa using e2)
  subst hst
  subst hd1; subst hd2; subst hd3
  have hbDataLen : ∀ b ∈ dataLenB, b < 256 := fun b m => hb b (by simp [m])
  have hbData : ∀ b ∈ data, b < 256 := fun b m => hb b (by simp [m])
  have hDataLenB : toLe 4 (ofLe dataLenB) = dataLenB := by
    rw [← hn4]; exact toLe_ofLe hbDataLen
  have hDataLt : ofLe dataLenB < 2 ^ (8 * 4) := hn4 ▸ ofLe_lt hbDataLen
  refine ⟨⟨?_, hbData⟩, ?_⟩
  · simp only [hnData]; omega
  · simp only [MoverResponse.write_to, hnData, hDataLenB,
      List.append_assoc, List.cons_append, List.nil_append]

theorem request_write_bytes {x : MoverRequest} (hx : ValidReq x) :
    ∀ b ∈ x.write_to, b < 256 := by
  obtain ⟨_, _, _, _, hid, hdata⟩ := hx
  intro b m
  simp only [MoverRequest.write_to, List.append_assoc, List.cons_append,
    List.nil_append, List.mem_cons, List.mem_append] at m
  have hop : x.op.toByte < 256 := by cases x.op <;> simp [OpCode.toByte]
  rcases m with m | m | m | m | m | m | m
  · omega
  · exact mem_toLe_lt m
  · exact hid b m
  · exact mem_toLe_lt m
  · exact mem_toLe_lt m
  · exact mem_toLe_lt m
  · exact hdata b m

theorem response_write_bytes {x : MoverResponse} (hx : ValidResp x) :
    ∀ b ∈ x.write_to, b < 256 := by
  obtain ⟨_, hdata⟩ := hx
  intro b m
  simp only [MoverResponse.write_to, List.append_assoc, List.cons_append,
    List.nil_append, List.mem_cons, List.mem_append] at m
  have hst : x.status.toByte < 256 := by
    cases x.status <;> simp [ResponseStatus.toByte]
  rcases m with m | m | m
  · omega
  · exact mem_toLe_lt m
  · exact hdata b m

/-- Decoding any strict prefix of an encoded request fails. -/
theorem request_truncated {x : MoverRequest} (hx : ValidReq x) {k : Nat}
    (hk : k < x.write_to.length) :
    ∃ e, MoverRequest.read_from (x.write_to.take k) = .error e := by
  cases hres : MoverRequest.read_from (x.write_to.take k) with
  | error e => exact ⟨e, rfl⟩
  | ok p =>
    exfalso
    obtain ⟨v, rest⟩ := p
    have hbytes : ∀ b ∈ x.write_to.take k, b < 256 := fun b m =>
      request_write_bytes hx b (List.take_subset k _ m)
    obtain ⟨hv, hdec⟩ := request_read_inv hbytes hres
    have hsplit : x.write_to = x.write_to.take k ++ x.write_to.drop k :=
      (List.take_append_drop k _).symm
    have hx2 : MoverRequest.read_from
        (v.write_to ++ (rest ++ x.write_to.drop k)) = .ok (v, rest ++ x.write_to.drop k) :=
      request_read_write v hv _
    have hx1 : MoverRequest.read_from (x.write_to ++ []) = .ok (x, []) :=
      request_read_write x hx []
    rw [List.append_nil, hsplit, hdec, List.append_assoc] at hx1
    rw [hx1] at hx2
    have hdrop : rest ++ x.write_to.drop k = [] := by
      have := hx2
      simp only [Except.ok.injEq, Prod.mk.injEq] at this
      exact this.2.symm
    have : x.write_to.drop k = [] := List.append_eq_nil.mp hdrop |>.2
    have := congrArg List.length this
    simp only [List.length_drop, List.length_nil] at this
    omega

/-- Decoding any strict prefix of an encoded response fails. -/
theorem response_truncated {x : MoverResponse} (hx : ValidResp x) {k : Nat}
    (hk : k < x.write_to.length) :
    ∃ e, MoverResponse.read_from (x.write_to.take k) = .error e := by
  cases hres : MoverResponse.read_from (x.write_to.take k) with
  | error e => exact ⟨e, rfl⟩
  | ok p =>
    exfalso
    obtain ⟨v, rest⟩ := p
    have hbytes : ∀ b ∈ x.write_to.take k, b < 256 := fun b m =>
      response_write_bytes hx b (List.take_subset k _ m)
    obtain ⟨hv, hdec⟩ := response_read_inv hbytes hres
    have hsplit : x.write_to = x.write_to.take k ++ x.write_to.drop k :=
      (List.take_append_drop k _).symm
    have hx2 : MoverResponse.read_from
        (v.write_to ++ (rest ++ x.write_to.drop k)) = .ok (v, rest ++ x.write_to.drop k) :=
      response_read_write v hv _
    have hx1 : MoverResponse.read_from (x.write_to ++ []) = .ok (x, []) :=
      response_read_write x hx []
    rw [List.append_nil, hsplit, hdec, List.append_assoc] at hx1
    rw [hx1] at hx2
    have hdrop : rest ++ x.write_to.drop k = [] := by
      have := hx2
      simp only [Except.ok.injEq, Prod.mk.injEq] at this
      exact this.2.symm
    have : x.write_to.drop k = [] := List.append_eq_nil.mp hdrop |>.2
    have := congrArg List.length this
    simp only [List.length_drop, List.length_nil] at this
    omega

theorem tryFrom_unknown {b : Nat} (h1 : b ≠ 1) (h2 : b ≠ 2) (h3 : b ≠ 3)
    (h4 : b ≠ 4) (h5 : b ≠ 5) :
    OpCode.tryFrom b = .error "unknown op code" := by
  unfold OpCode.tryFrom
  rw [if_neg h1, if_neg h2, if_neg h3, if_neg h4, if_neg h5]

theorem statusTryFrom_unknown {s : Nat} (h0 : s ≠ 0) (h1 : s ≠ 1) (h2 : s ≠ 2) :
    ResponseStatus.tryFrom s = .error "unknown status" := by
  unfold ResponseStatus.tryFrom
  rw [if_neg h0, if_neg h1, if_neg h2]

/-- C1: for every valid `MoverRequest` (opcode one of the five, identifier
at most 65535 bytes, payload at most 2^32-1 bytes, empty fields included)
and every valid `MoverResponse` (status one of the three, payload at most
2^32-1 bytes), decoding the encoding returns exactly the original value,
consuming the whole stream. -/
theorem C1_protocol_roundtrip :
    (∀ x : MoverRequest, ValidReq x →
      MoverRequest.read_from x.write_to = .ok (x, [])) ∧
    (∀ y : MoverResponse, ValidResp y →
      MoverResponse.read_from y.write_to = .ok (y, [])) := by
  constructor
  · intro x hx
    simpa using request_read_write x hx []
  · intro y hy
    simpa using response_read_write y hy []

/-- Witness for C1 at a concrete request and response. -/
theorem C1_protocol_roundtrip_witness :
    MoverRequest.read_from (MoverRequest.write_to
        { op := .Read, id := [97, 98, 99], offset := 5, length := 1024,
          data := [0, 255] })
      = .ok ({ op := OpCode.Read, id := [97, 98, 99], offset := 5,
               length := 1024, data := [0, 255] }, []) ∧
    MoverResponse.read_from (MoverResponse.write_to
        { status := .Ok, data := [1, 2, 3] })
      = .ok ({ status := ResponseStatus.Ok, data := [1, 2, 3] }, []) :=
  ⟨C1_protocol_roundtrip.1 _ (by decide), C1_protocol_roundtrip.2 _ (by decide)⟩

/-- C2 (refuted: code bug): encoding an oversized identifier does not fail.
`MoverRequest::write_to` has no failure path for sizes (its writer is an
in-memory `Vec<u8>`, so the embedding is total), and for an identifier of
65536 bytes the emitted `u16` length prefix is `65536 as u16 = 0`: the
first three encoded bytes are `[1, 0, 0]`, a silently truncated length
prefix for an identifier whose real length is 65536. -/
theorem C2_encode_truncates_prefix :
    (MoverRequest.write_to
        { op := .Read, id := List.replicate 65536 0, offset := 0,
          length := 0, data := [] }).take 3 = [1, 0, 0] ∧
    ofLe ((MoverRequest.write_to
        { op := .Read, id := List.replicate 65536 0, offset := 0,
          length := 0, data := [] }).drop 1 |>.take 2) = 0 ∧
    ({ op := .Read, id := List.replicate 65536 0, offset := 0,
       length := 0, data := [] } : MoverRequest).id.length = 65536 := by
  have h : toLe 2 (List.replicate 65536 (0 : Nat)).length = [0, 0] := by
    norm_num [toLe]
  refine ⟨?_, ?_, ?_⟩
  · simp only [MoverRequest.write_to]
    rw [h]
    rfl
  · simp only [MoverRequest.write_to]
    rw [h]
    rfl
  · show (List.replicate 65536 (0 : Nat)).length = 65536
    exact List.length_replicate _ _

/-- C8: request decoding fails for a leading operation byte outside
`{1,2,3,4,5}`; response decoding fails for a leading status byte outside
`{0,1,2}`; and decoding any strict prefix (truncation) of a valid encoded
request or response fails. No failure defaults to an operation or status. -/
theorem C8_decode_failures :
    (∀ b : Nat, b ∉ [1, 2, 3, 4, 5] → ∀ rest : List Nat,
      ∃ e, MoverRequest.read_from (b :: rest) = .error e) ∧
    (∀ s : Nat, s ∉ [0, 1, 2] → ∀ rest : List Nat,
      ∃ e, MoverResponse.read_from (s :: rest) = .error e) ∧
    (∀ x : MoverRequest, ValidReq x → ∀ k < x.write_to.length,
      ∃ e, MoverRequest.read_from (x.write_to.take k) = .error e) ∧
    (∀ y : MoverResponse, ValidResp y → ∀ k < y.write_to.length,
      ∃ e, MoverResponse.read_from (y.write_to.take k) = .error e) := by
  refine ⟨?_, ?_, ?_, ?_⟩
  · intro b hb rest
    simp only [List.mem_cons, List.not_mem_nil, or_false] at hb
    push_neg at hb
    obtain ⟨h1, h2, h3, h4, h5⟩ := hb
    rw [MoverRequest.read_from, readExact_cons]
    simp only [List.headD_cons, tryFrom_unknown h1 h2 h3 h4 h5]
    exact ⟨_, rfl⟩
  · intro s hs rest
    simp only [List.mem_cons, List.not_mem_nil, or_false] at hs
    push_neg at hs
    obtain ⟨h0, h1, h2⟩ := hs
    rw [MoverResponse.read_from, readExact_cons]
    simp only [List.headD_cons, statusTryFrom_unknown h0 h1 h2]
    exact ⟨_, rfl⟩
  · intro x hx k hk
    exact request_truncated hx hk
  · intro y hy k hk
    exact response_truncated hy hk

/-- Witness for C8: unknown op byte `0x99`, unknown status byte `0x99`,
and a truncation of each kind of frame. -/
theorem C8_decode_failures_witness :
    (∃ e, MoverRequest.read_from (0x99 :: [0, 0]) = .error e) ∧
    (∃ e, MoverResponse.read_from (0x99 :: [0, 0]) = .error e) ∧
    (∃ e, MoverRequest.read_from
      ((MoverRequest.write_to
        { op := .Read, id := [7], offset := 0, length := 0, data := [] }).take 5)
        = .error e) ∧
    (∃ e, MoverResponse.read_from
      ((MoverResponse.write_to { status := .Ok, data := [1] }).take 3)
        = .error e) :=
  ⟨C8_decode_failures.1 0x99 (by decide) [0, 0],
   C8_decode_failures.2.1 0x99 (by decide) [0, 0],
   C8_decode_failures.2.2.1 _ (by decide) 5 (by decide),
   C8_decode_failures.2.2.2 _ (by decide) 3 (by decide)⟩

/-- C3: `MoverConfig::validate` returns the configuration unchanged when
every rule holds, returns an error when any rule is violated, and behaves
as the claim's concrete examples say. -/
theorem C3_validate_rules :
    (∀ c : MoverConfig, ConfigOk c → c.validate = .ok c) ∧
    (∀ c : MoverConfig, ¬ ConfigOk c → ∃ e, c.validate = .error e) ∧
    ({ MoverConfig.with_defaults with iouring_entries := 1000 }.validate).isOk = false ∧
    ({ MoverConfig.with_defaults with iouring_entries := 128 }.validate).isOk = false ∧
    ({ MoverConfig.with_defaults with iouring_entries := 16384 }.validate).isOk = false ∧
    ({ MoverConfig.with_defaults with buffer_size := 3000 }.validate).isOk = false ∧
    ({ MoverConfig.with_defaults with buffer_count := 0 }.validate).isOk = false ∧
    ({ MoverConfig.with_defaults with buffer_count := 2000 }.validate).isOk = false ∧
    ({ MoverConfig.with_defaults with socket_path := "relative/path" }.validate).isOk = false ∧
    MoverConfig.with_defaults.validate = .ok MoverConfig.with_defaults ∧
    ({ MoverConfig.with_defaults with buffer_size := 8192 }.validate
      = .ok { MoverConfig.with_defaults with buffer_size := 8192 }) ∧
    ({ MoverConfig.with_defaults with buffer_count := 256 }.validate
      = .ok { MoverConfig.with_defaults with buffer_count := 256 }) := by
  have hok : ∀ c : MoverConfig, ConfigOk c → c.validate = .ok c := by
    intro c hc
    obtain ⟨h1, h2, h3, h4, h5, h6, h7, h8, h9⟩ := hc
    unfold MoverConfig.validate
    rw [if_neg (by simp [h1]), if_neg (by omega), if_neg (by omega),
      if_neg (by omega), if_neg (by omega), if_neg (by simp [h9])]
  have herr : ∀ c : MoverConfig, ¬ ConfigOk c → ∃ e, c.validate = .error e := by
    intro c hc
    cases hv : c.validate with
    | error e => exact ⟨e, rfl⟩
    | ok c' =>
      exfalso
      apply hc
      unfold MoverConfig.validate at hv
      split_ifs at hv with g1 g2 g3 g4 g5 g6
      exact ⟨by simpa using g1, by omega, by omega, by omega, by omega,
        by omega, by omega, by omega, by simpa using g6⟩
  refine ⟨hok, herr, by decide, by decide, by decide, by decide, by decide,
    by decide, by decide, hok _ (by decide), hok _ (by decide), hok _ (by decide)⟩

/-- Witness for C3: the default configuration satisfies every rule and
validates to itself, and a configuration with `iouring_entries = 1000`
violates the power-of-two rule and fails. -/
theorem C3_validate_rules_witness :
    MoverConfig.with_defaults.validate = .ok MoverConfig.with_defaults ∧
    (∃ e, ({ MoverConfig.with_defaults with iouring_entries := 1000 }).validate
      = .error e) :=
  ⟨C3_validate_rules.1 MoverConfig.with_defaults (by decide),
   C3_validate_rules.2.1 _ (by decide)⟩

/-- One `acquire` step after another, `k` times in total; the free list of
`BufferPool.new N sz` is `range N`, and each step pops the last entry. -/
theorem acquireChain_spec (k : Nat) : ∀ (bufs : List (List Nat)) (l : List Nat),
    BufferPool.acquireChain ⟨bufs, l⟩ k =
      if k ≤ l.length then some ⟨bufs, l.take (l.length - k)⟩ else none := by
  induction k with
  | zero =>
    intro bufs l
    simp [BufferPool.acquireChain, List.take_length]
  | succ k ih =>
    intro bufs l
    rcases List.eq_nil_or_concat l with rfl | ⟨l', a, rfl⟩
    · simp [BufferPool.acquireChain, BufferPool.acquire]
    · simp only [List.concat_eq_append, BufferPool.acquireChain,
        BufferPool.acquire, List.getLast?_concat, List.dropLast_concat,
        ih bufs l', List.length_append, List.length_singleton]
      by_cases hk : k ≤ l'.length
      · rw [if_pos hk, if_pos (by omega),
          List.take_append_of_le_length (by omega),
          show l'.length + 1 - (k + 1) = l'.length - k from by omega]
      · rw [if_neg hk, if_neg (by omega)]

/-- C4: a fresh pool of `N ≥ 1` buffers admits exactly `N` successful
`acquire` calls — the `N`-th leaves an empty free list and the `(N+1)`-th
fails — and after `release i` of an in-bounds index the next `acquire`
returns exactly `i` (LIFO), restoring the pool to its prior state. -/
theorem C4_bufferpool_lifo :
    (∀ N sz : Nat, 1 ≤ N →
      BufferPool.acquireChain (BufferPool.new N sz) N =
        some { buffers := List.replicate N (List.replicate sz 0),
               available := [] } ∧
      BufferPool.acquireChain (BufferPool.new N sz) (N + 1) = none) ∧
    (∀ (p : BufferPool) (i : Nat), i < p.buffers.length →
      (p.release i).acquire = some (i, p)) := by
  constructor
  · intro N sz _
    constructor
    · rw [BufferPool.new, acquireChain_spec]
      simp
    · rw [BufferPool.new, acquireChain_spec]
      simp
  · intro p i hi
    obtain ⟨bufs, avail⟩ := p
    simp only [BufferPool.release, BufferPool.acquire] at *
    rw [if_pos hi]
    simp [List.getLast?_concat, List.dropLast_concat]

/-- Witness for C4: a pool of 4 buffers drains in exactly 4 acquires, the
5th fails, and releasing index 1 into a pool makes the next acquire
return 1. -/
theorem C4_bufferpool_lifo_witness :
    BufferPool.acquireChain (BufferPool.new 4 1) 4 =
      some { buffers := List.replicate 4 (List.replicate 1 0),
             available := [] } ∧
    BufferPool.acquireChain (BufferPool.new 4 1) 5 = none ∧
    ((⟨List.replicate 2 [], [0]⟩ : BufferPool).release 1).acquire
      = some (1, ⟨List.replicate 2 [], [0]⟩) :=
  ⟨(C4_bufferpool_lifo.1 4 1 (by decide)).1,
   (C4_bufferpool_lifo.1 4 1 (by decide)).2,
   C4_bufferpool_lifo.2 ⟨List.replicate 2 [], [0]⟩ 1 (by decide)⟩

/-- C5 (refuted: code bug): `BufferPool::release` has no double-release
guard. Releasing index 1 twice without an intervening acquire on a pool
of two buffers puts 1 on the free list twice, after which two successive
`acquire` calls both return buffer index 1. -/
theorem C5_double_release_not_detected :
    ∃ p1 q1 q2,
      (BufferPool.new 2 1).acquire = some (1, p1) ∧
      ((p1.release 1).release 1).acquire = some (1, q1) ∧
      q1.acquire = some (1, q2) :=
  ⟨⟨List.replicate 2 (List.replicate 1 0), [0]⟩,
   ⟨List.replicate 2 (List.replicate 1 0), [0, 1]⟩,
   ⟨List.replicate 2 (List.replicate 1 0), [0]⟩,
   by decide, by decide, by decide⟩

/-- C6: `batch_read` returns `Ok` exactly when every spawned read
succeeds, with one result per input in input order; and as soon as any
single read fails it returns an overall error — by its return type there
is no partial result list. -/
theorem C6_batch_read_fail_fast :
    (∀ (readFile : ReadOp → Except String (List Nat)) (ops : List ReadOp)
        (ws : List (List Nat)),
      batch_read readFile ops = .ok ws ↔ ops.map readFile = ws.map Except.ok) ∧
    (∀ (readFile : ReadOp → Except String (List Nat)) (ops : List ReadOp),
      (∃ op ∈ ops, ∃ e, readFile op = .error e) →
      ∃ e, batch_read readFile ops = .error e) := by
  constructor
  · intro readFile ops
    induction ops with
    | nil =>
      intro ws
      cases ws <;> simp [batch_read]
    | cons op rest ih =>
      intro ws
      cases hf : readFile op with
      | error e =>
        simp only [batch_read, hf, List.map_cons]
        constructor
        · intro h
          exact absurd h (by simp)
        · intro h
          cases ws with
          | nil => simp at h
          | cons w ws' =>
            simp only [List.map_cons, List.cons.injEq] at h
            exact absurd h.1 (by simp)
      | ok buf =>
        cases hb : batch_read readFile rest with
        | error e =>
          simp only [batch_read, hf, hb, List.map_cons]
          constructor
          · intro h
            exact absurd h (by simp)
          · intro h
            cases ws with
            | nil => simp at h
            | cons w ws' =>
              simp only [List.map_cons, List.cons.injEq,
                Except.ok.injEq] at h
              have := (ih ws').mpr h.2
              rw [hb] at this
              exact absurd this (by simp)
        | ok bufs =>
          simp only [batch_read, hf, hb, List.map_cons]
          cases ws with
          | nil => simp
          | cons w ws' =>
            have hrest := ih ws'
            rw [hb] at hrest
            simp only [List.map_cons, List.cons.injEq, Except.ok.injEq,
              List.cons.injEq]
            constructor
            · intro h
              exact ⟨by rw [h.1], hrest.mp (by rw [h.2])⟩
            · intro h
              have := hrest.mpr h.2
              simp only [Except.ok.injEq] at this
              exact ⟨h.1, this⟩
  · intro readFile ops
    induction ops with
    | nil =>
      intro h
      simp at h
    | cons op rest ih =>
      intro h
      cases hf : readFile op with
      | error e => exact ⟨e, by simp [batch_read, hf]⟩
      | ok buf =>
        have hrest : ∃ op ∈ rest, ∃ e, readFile op = .error e := by
          obtain ⟨op₀, hmem, e₀, he₀⟩ := h
          rcases List.mem_cons.mp hmem with rfl | hmem'
          · rw [hf] at he₀
            exact absurd he₀ (by simp)
          · exact ⟨op₀, hmem', e₀, he₀⟩
        obtain ⟨e, he⟩ := ih hrest
        exact ⟨e, by simp [batch_read, hf, he]⟩

/-- Witness for C6: a batch of three reads whose second fails yields an
overall batch error; a batch whose reads all succeed yields exactly the
per-read payloads in order. -/
theorem C6_batch_read_fail_fast_witness :
    (∃ e, batch_read
        (fun op => if op.path = "b" then .error "boom" else .ok [7])
        [⟨"a", 0, 1⟩, ⟨"b", 0, 1⟩, ⟨"c", 0, 1⟩] = .error e) ∧
    batch_read (fun op => if op.path = "b" then .error "boom" else .ok [7])
        [⟨"a", 0, 1⟩, ⟨"c", 0, 1⟩] = .ok [[7], [7]] :=
  ⟨C6_batch_read_fail_fast.2 _ _ ⟨⟨"b", 0, 1⟩, by decide, "boom", by rfl⟩,
   (C6_batch_read_fail_fast.1 _ _ _).mpr (by rfl)⟩

/-- C7: with no backend wired, every dispatched handler — for each of the
five opcodes — returns a response with status `Error` whose payload
contains the text "not implemented"; in particular a `Read` request with
id `b"abc"`, offset 0, length 0 and empty payload does. -/
theorem C7_handlers_not_implemented :
    (∀ req : MoverRequest,
      (dispatch req).status = .Error ∧
      containsBytes (strBytes "not implemented") (dispatch req).data = true) ∧
    ((dispatch abcReadReq).status = .Error ∧
      containsBytes (strBytes "not implemented")
        (dispatch abcReadReq).data = true) := by
  constructor
  · intro req
    obtain ⟨op, id, off, len, data⟩ := req
    cases op <;>
      refine ⟨rfl, ?_⟩ <;>
      simp only [dispatch, handle_read, handle_write, handle_send_zc,
        handle_recv, handle_batch] <;>
      decide
  · exact ⟨rfl, by decide⟩

/-- The flag loop fails, naming the (first) unrecognized flag, whenever
some segment's canonical name is not in the flag table. -/
theorem parseFlagsLoop_err :
    ∀ (segs : List (List Char)) (flags : Nat) (seg₀ : List Char),
      segs.find? (fun seg => (flagBit (canonFlag seg)).isNone) = some seg₀ →
      parseFlagsLoop flags segs =
        .error ("Unknown io_uring flag: " ++ (canonFlag seg₀).asString) := by
  intro segs
  induction segs with
  | nil =>
    intro flags seg₀ h
    simp [List.find?] at h
  | cons seg rest ih =>
    intro flags seg₀ h
    cases hfb : flagBit (canonFlag seg) with
    | none =>
      rw [List.find?_cons_of_pos _ (by simp [hfb])] at h
      injection h with h
      subst h
      rw [parseFlagsLoop, hfb]
    | some b =>
      rw [List.find?_cons_of_neg _ (by simp [hfb])] at h
      rw [parseFlagsLoop, hfb]
      exact ih _ _ h

/-- C9: `parse_iouring_flags` maps `"clamp,sqpoll"` to
`CLAMP ||| SQPOLL = 0x12`, maps any string that parses as a `u32` to that
literal value, maps `""` to `0` (empty segments are ignored, as
`"clamp,,sqpoll"` also shows), and fails with an error naming the flag
for a string containing an unrecognized symbolic name. -/
theorem C9_parse_flags :
    parseFlagsStr "clamp,sqpoll" = .ok 0x12 ∧
    (∀ (s : String) (n : Nat), rustParseUnsigned (2 ^ 32) s = some n →
      parseFlagsStr s = .ok n) ∧
    parseFlagsStr "" = .ok 0 ∧
    parseFlagsStr "clamp,,sqpoll" = .ok 0x12 ∧
    (∀ (s : String) (seg₀ : List Char),
      rustParseUnsigned (2 ^ 32) s = none →
      (s.toList.splitOn ',').find?
        (fun seg => (flagBit (canonFlag seg)).isNone) = some seg₀ →
      parseFlagsStr s =
        .error ("Unknown io_uring flag: " ++ (canonFlag seg₀).asString)) := by
  refine ⟨by rfl, ?_, by rfl, by rfl, ?_⟩
  · intro s n h
    rw [parseFlagsStr, h]
  · intro s seg₀ hnum hfind
    rw [parseFlagsStr, hnum]
    exact parseFlagsLoop_err _ _ _ hfind

/-- Witness for C9: `"18"` parses numerically to 18, and `"bogus"` fails
with an error naming the flag. -/
theorem C9_parse_flags_witness :
    parseFlagsStr "18" = .ok 18 ∧
    parseFlagsStr "bogus" =
      .error ("Unknown io_uring flag: " ++ (canonFlag "bogus".toList).asString) :=
  ⟨C9_parse_flags.2.1 "18" 18 (by rfl),
   C9_parse_flags.2.2.2.2 "bogus" "bogus".toList (by rfl) (by rfl)⟩

/-- C10: for every numeric setting, a present-but-unparsable environment
value silently falls back to the built-in default (`get_env_u32` /
`get_env_usize` / `get_env_u64` swallow the parse failure), so
`load_from_env` substitutes the default for that setting; and
`load_from_env` fails exactly when `parse_iouring_flags` fails — no other
setting can make it fail. -/
theorem C10_env_fallback :
    (∀ (env : Env) (key : String) (d : Nat) (v : String), env key = some v →
      rustParseUnsigned (2 ^ 32) v = none → get_env_u32 env key d = d) ∧
    (∀ (env : Env) (key : String) (d : Nat) (v : String), env key = some v →
      rustParseUnsigned (2 ^ 64) v = none →
      get_env_usize env key d = d ∧ get_env_u64 env key d = d) ∧
    (∀ env : Env, (MoverConfig.load_from_env env).isOk
      = (MoverConfig.parse_iouring_flags env).isOk) ∧
    (∀ (env : Env) (c : MoverConfig), MoverConfig.load_from_env env = .ok c →
      (∀ v, env "IOURING_ENTRIES" = some v →
        rustParseUnsigned (2 ^ 32) v = none → c.iouring_entries = 4096) ∧
      (∀ v, env "MOVER_BUFFER_COUNT" = some v →
        rustParseUnsigned (2 ^ 64) v = none → c.buffer_count = 256) ∧
      (∀ v, env "MOVER_BUFFER_SIZE" = some v →
        rustParseUnsigned (2 ^ 64) v = none → c.buffer_size = 4096) ∧
      (∀ v, env "MOVER_BATCH_TIMEOUT_MS" = some v →
        rustParseUnsigned (2 ^ 64) v = none → c.batch_timeout_ms = 10) ∧
      (∀ v, env "MOVER_MAX_CONNECTIONS" = some v →
        rustParseUnsigned (2 ^ 64) v = none → c.max_connections = 32)) := by
  have hu32 : ∀ (env : Env) (key : String) (d : Nat) (v : String),
      env key = some v → rustParseUnsigned (2 ^ 32) v = none →
      get_env_u32 env key d = d := by
    intro env key d v hv hp
    rw [get_env_u32, hv]
    show (rustParseUnsigned (2 ^ 32) v).getD d = d
    rw [hp]
    rfl
  have husize : ∀ (env : Env) (key : String) (d : Nat) (v : String),
      env key = some v → rustParseUnsigned (2 ^ 64) v = none →
      get_env_usize env key d = d := by
    intro env key d v hv hp
    rw [get_env_usize, hv]
    show (rustParseUnsigned (2 ^ 64) v).getD d = d
    rw [hp]
    rfl
  have hu64 : ∀ (env : Env) (key : String) (d : Nat) (v : String),
      env key = some v → rustParseUnsigned (2 ^ 64) v = none →
      get_env_u64 env key d = d := by
    intro env key d v hv hp
    rw [get_env_u64, hv]
    show (rustParseUnsigned (2 ^ 64) v).getD d = d
    rw [hp]
    rfl
  refine ⟨hu32, fun env key d v hv hp => ⟨husize env key d v hv hp,
    hu64 env key d v hv hp⟩, ?_, ?_⟩
  · intro env
    rw [MoverConfig.load_from_env]
    cases h : MoverConfig.parse_iouring_flags env <;> rfl
  · intro env c hc
    rw [MoverConfig.load_from_env] at hc
    cases h : MoverConfig.parse_iouring_flags env with
    | error e =>
      rw [h] at hc
      exact absurd hc (by simp)
    | ok flags =>
      rw [h] at hc
      injection hc with hc
      subst hc
      exact ⟨fun v hv hp => hu32 env _ _ v hv hp,
        fun v hv hp => husize env _ _ v hv hp,
        fun v hv hp => husize env _ _ v hv hp,
        fun v hv hp => hu64 env _ _ v hv hp,
        fun v hv hp => husize env _ _ v hv hp⟩

/-- Witness for C10: with `IOURING_ENTRIES="abc"` and nothing else set,
the unparsable value falls back to the default 4096, `load_from_env`
still succeeds, and the loaded configuration carries `entries = 4096`. -/
theorem C10_env_fallback_witness :
    get_env_u32 abcEntriesEnv "IOURING_ENTRIES" 4096 = 4096 ∧
    (MoverConfig.load_from_env abcEntriesEnv).isOk
      = (MoverConfig.parse_iouring_flags abcEntriesEnv).isOk ∧
    ∃ c, MoverConfig.load_from_env abcEntriesEnv = .ok c ∧
      c.iouring_entries = 4096 :=
  ⟨C10_env_fallback.1 abcEntriesEnv "IOURING_ENTRIES" 4096 "abc"
      (by rfl) (by rfl),
   C10_env_fallback.2.2.1 abcEntriesEnv,
   ⟨_, rfl, (C10_env_fallback.2.2.2 abcEntriesEnv _ rfl).1 "abc"
      (by rfl) (by rfl)⟩⟩

end Mover
